import Mathlib

/-!
Verification of the webhook test-support harness
(delivery-webhook payload builder, in-process webhook event collector,
ngrok-backed inbound listener, HTTP 429 retry helper).

The definitions below are a shallow embedding of the TypeScript sources:

* `src/types/delivery/webhook-types.ts` — the payload shape;
* `src/utils/webhook/webhook-builder.ts` — `buildDeliveryWebhook`;
* `src/utils/webhook/ngrok-client.ts` — the shared `webhooks` log,
  `waitForWebhookStatuses`, `startServer`'s `/webhook` handler,
  `getWebhooks`, `clearWebhooks`, and `stopServer`;
* `src/utils/webhook/webhook-server.ts` — `createWebhookServer` with its
  single-shot `waitForWebhook` and `getAllEvents`;
* the unnamed retry module — `requestWithRetryOn429`.

Stateful JavaScript is embedded as explicit state passing; the polling
wait is embedded as a tick function indexed by the poll counter; promise
settlement ("first resolve/reject wins") is embedded by recording the
settle attempts of a tick in program order and taking the first.
-/

namespace Webhook

/-! ## Payload model (`src/types/delivery/webhook-types.ts`) -/

/-- `DeliveryAddress` from `webhook-types.ts`. -/
structure DeliveryAddress where
  city : String
  street : String
  house : String
  flat : String
  entrance : String
  intercom : String
  comment : String
  deriving DecidableEq, Repr

/-- `ClientInfo` from `webhook-types.ts`. -/
structure ClientInfo where
  name : String
  phone : String
  deriving DecidableEq, Repr

/-- `DeliveryWebhook` from `webhook-types.ts`. -/
structure DeliveryWebhook where
  orderId : String
  status : String
  paid : Bool
  leaveAtTheDoor : Bool
  deliveryAddress : DeliveryAddress
  clientInfo : ClientInfo
  deriving DecidableEq, Repr

/-- `Partial<DeliveryWebhook>`: each top-level field is either supplied
(`some`) or absent (`none`).  Supplied nested objects are whole
`DeliveryAddress` / `ClientInfo` values, exactly as a JavaScript object
literal passed to the builder. -/
structure DeliveryWebhookOverrides where
  orderId : Option String := none
  status : Option String := none
  paid : Option Bool := none
  leaveAtTheDoor : Option Bool := none
  deliveryAddress : Option DeliveryAddress := none
  clientInfo : Option ClientInfo := none
  deriving DecidableEq, Repr

/-! ## Payload builder (`src/utils/webhook/webhook-builder.ts`) -/

/-- The external `uuid` library's `v4` generator, embedded as a
deterministic fresh-token source threaded through a draw counter: draw
`g` yields a string whose length is `g + 1`, so distinct draws yield
distinct strings — the uniqueness contract of `uuidv4`.  Returns the
token together with the advanced counter. -/
def uuidv4 (g : Nat) : String × Nat :=
  (String.mk (List.replicate (g + 1) (Char.ofNat 42)), g + 1)

/-- Default `deliveryAddress` literal of `buildDeliveryWebhook`. -/
def defaultDeliveryAddress : DeliveryAddress :=
  { city := "Sydney"
    street := "Wallaby Way"
    house := "42"
    flat := "3"
    entrance := "2"
    intercom := "2"
    comment := "Please ring and leave at the door if no answer" }

/-- Default `clientInfo` literal of `buildDeliveryWebhook`. -/
def defaultClientInfo : ClientInfo :=
  { name := "Peter Gaevoy", phone := "+61 999 322 633" }

/-- `buildDeliveryWebhook(overrides)` from `webhook-builder.ts`:
`{ orderId: uuidv4(), status: "delivering", …defaults, ...overrides }`.
JavaScript spread is shallow, so a supplied top-level field replaces the
default wholesale; `uuidv4()` is evaluated on every call (its counter
advances even when `orderId` is overridden).  The generator counter is
passed and returned explicitly. -/
def buildDeliveryWebhook (g : Nat) (o : DeliveryWebhookOverrides) :
    DeliveryWebhook × Nat :=
  let fresh := uuidv4 g
  ({ orderId := o.orderId.getD fresh.1
     status := o.status.getD "delivering"
     paid := o.paid.getD true
     leaveAtTheDoor := o.leaveAtTheDoor.getD true
     deliveryAddress := o.deliveryAddress.getD defaultDeliveryAddress
     clientInfo := o.clientInfo.getD defaultClientInfo },
   fresh.2)

/-! ## Event collector (`src/utils/webhook/ngrok-client.ts`) -/

/-- A recorded webhook body.  `waitForWebhookStatuses` reads only the
top-level `status` property, which under the `WebhookData` index
signature is a string or absent; the rest of the body is kept abstract
as `payload`. -/
structure Body where
  status : Option String := none
  payload : String := ""
  deriving DecidableEq, Repr

/-- The `statuses` array computed on each poll tick:
`webhooks.map((w) => w.status).filter((s): s is string => Boolean(s))`.
`Boolean(s)` drops both absent statuses and the empty string (falsy in
JavaScript). -/
def observedStatuses (log : List Body) : List String :=
  (log.filterMap Body.status).filter (fun s => s ≠ "")

/-- The coverage check of a poll tick:
`expectedStatuses.every((s) => statuses.includes(s))`. -/
def allReceived (expected : List String) (log : List Body) : Bool :=
  expected.all (fun s => (observedStatuses log).contains s)

/-- One settlement attempt on the promise returned by
`waitForWebhookStatuses`: `resolve([...webhooks])` with the snapshot, or
`reject(new Error("Timeout: not all statuses received. Got: …"))`
carrying the observed-status list interpolated into the message. -/
inductive Settle where
  | resolve (snapshot : List Body)
  | reject (observed : List String)
  deriving DecidableEq, Repr

/-- The timeout check of a poll tick: `Date.now() - start > timeout * 1000 * 60`
with ticks fired by `setInterval(…, 500)`, so tick `n` runs at
`500 * (n + 1)` milliseconds after the start. -/
def deadlineElapsed (timeoutMin n : Nat) : Bool :=
  500 * (n + 1) > timeoutMin * 1000 * 60

/-- The settle attempts made by poll tick `n` of `waitForWebhookStatuses`,
in program order: the body first calls `resolve([...webhooks])` when
`allReceived`, then — with no early return — calls `reject(…)` when the
deadline has elapsed. -/
def tickSettles (expected : List String) (timeoutMin n : Nat)
    (log : List Body) : List Settle :=
  (if allReceived expected log then [Settle.resolve log] else [])
    ++ (if deadlineElapsed timeoutMin n then
          [Settle.reject (observedStatuses log)] else [])

/-- The outcome of poll tick `n`: a promise settles at most once, so the
first settle attempt of the tick wins (`none` = the tick neither
resolves nor rejects and polling continues). -/
def tickOutcome (expected : List String) (timeoutMin n : Nat)
    (log : List Body) : Option Settle :=
  (tickSettles expected timeoutMin n log).head?

/-- Runs the polling loop from tick `n` with the given fuel over a trace
of log contents (`trace k` = the shared `webhooks` array as seen by tick
`k`).  The fuel is only a termination bound; with adequate fuel the base
case is unreachable because the deadline tick always settles. -/
def runFrom (expected : List String) (timeoutMin : Nat)
    (trace : Nat → List Body) : Nat → Nat → Settle
  | 0, _ => Settle.reject []
  | fuel + 1, n =>
    match tickOutcome expected timeoutMin n (trace n) with
    | some s => s
    | none => runFrom expected timeoutMin trace fuel (n + 1)

/-- The last tick `waitForWebhookStatuses` can reach: `deadlineElapsed`
first holds at tick `120 * timeoutMin`, which therefore settles the
promise if no earlier tick did. -/
def deadlineTick (timeoutMin : Nat) : Nat := 120 * timeoutMin

/-- The settlement of `waitForWebhookStatuses(expected, timeoutMin)` run
against a trace of log contents. -/
def runWait (expected : List String) (timeoutMin : Nat)
    (trace : Nat → List Body) : Settle :=
  runFrom expected timeoutMin trace (deadlineTick timeoutMin + 1) 0

/-! ## The shared event log as a value (`startServer` in `ngrok-client.ts`) -/

/-- The two mutations ever applied to the shared `webhooks` array: the
`POST /webhook` handler's `webhooks.push(data)`, and
`clearWebhooks: () => webhooks.splice(0)`. -/
inductive Op where
  | record (b : Body)
  | clear
  deriving DecidableEq, Repr

/-- Effect of one operation on the log contents. -/
def applyOp (log : List Body) : Op → List Body
  | Op.record b => log ++ [b]
  | Op.clear => []

/-- Effect of a sequence of operations, applied left to right. -/
def runOps (log : List Body) (ops : List Op) : List Body :=
  ops.foldl applyOp log

/-! ## Array references (`getWebhooks` vs `getAllEvents`)

JavaScript arrays are heap objects; whether an accessor returns a copy
or the live array is observable.  The heap is embedded as a store of
array cells addressed by index; cell `logRef` holds the internal log
(`webhooks` in `ngrok-client.ts`, `receivedEvents` in
`webhook-server.ts`). -/

/-- A store of array cells; `cells.getD r []` is the contents of the
array object addressed by `r`. -/
structure Store where
  cells : List (List Body)
  deriving DecidableEq, Repr

/-- Read the array addressed by `r`. -/
def Store.read (st : Store) (r : Nat) : List Body :=
  st.cells.getD r []

/-- Overwrite the array addressed by `r`. -/
def Store.write (st : Store) (r : Nat) (v : List Body) : Store :=
  ⟨st.cells.set r v⟩

/-- Allocate a fresh array object with contents `v`; returns the new
store and the fresh address. -/
def Store.alloc (st : Store) (v : List Body) : Store × Nat :=
  (⟨st.cells ++ [v]⟩, st.cells.length)

/-- Address of the internal log array, allocated when the module loads
(the server keeps it for its whole lifetime). -/
def logRef : Nat := 0

/-- The `POST /webhook` handler's `push` through the store: the log cell
is extended in place. -/
def recordRef (st : Store) (b : Body) : Store :=
  st.write logRef (st.read logRef ++ [b])

/-- `getWebhooks: () => [...webhooks]` from `ngrok-client.ts`: spreads
the log into a freshly allocated array and returns its address. -/
def getWebhooks (st : Store) : Store × Nat :=
  st.alloc (st.read logRef)

/-- `getAllEvents = () => receivedEvents` from `webhook-server.ts`:
returns the address of the internal array itself, allocating nothing. -/
def getAllEvents (st : Store) : Store × Nat :=
  (st, logRef)

/-! ## Teardown (`stopServer` in `ngrok-client.ts`) -/

/-- `stopServer(server)` embedded over the results of its three steps:
`server.close()` is called without a callback and not awaited, so its
result `closeRes` is never inspected; `await ngrok.disconnect()` and
`await ngrok.kill()` propagate a rejection out of the `async` function
at once.  Returns the list of steps actually attempted, in order,
together with the function's own settlement. -/
def stopServer (closeRes disconnectRes killRes : Except String Unit) :
    List String × Except String Unit :=
  let afterClose := ["close"]
  match disconnectRes with
  | Except.error e => (afterClose ++ ["disconnect"], Except.error e)
  | Except.ok _ =>
    match killRes with
    | Except.error e =>
      (afterClose ++ ["disconnect", "kill"], Except.error e)
    | Except.ok _ =>
      (afterClose ++ ["disconnect", "kill"], Except.ok ())

/-! ## Retry helper (`requestWithRetryOn429` in the unnamed module) -/

/-- Outcome of `requestWithRetryOn429`: either the first non-429
response (with how many attempts were made and the delays awaited so
far, in milliseconds and chronological order), or the
`"Too many retries due to 429 errors"` error after all attempts
returned 429 (again with the attempt count and awaited delays). -/
inductive RetryOutcome where
  | success (status attempts : Nat) (delays : List Nat)
  | exhausted (attempts : Nat) (delays : List Nat)
  deriving DecidableEq, Repr

/-- The `for (let i = 0; i < retries; i++)` loop: `responses k` is the
status of the `k`-th invocation of `reqFn` (0-based); a non-429 status
returns immediately, a 429 awaits `delay(backoff * (i + 1))` and
continues; when the loop ends the function throws. -/
def retryLoop (responses : Nat → Nat) (backoff : Nat) :
    Nat → Nat → RetryOutcome
  | 0, i => RetryOutcome.exhausted i []
  | remaining + 1, i =>
    if responses i ≠ 429 then
      RetryOutcome.success (responses i) (i + 1) []
    else
      match retryLoop responses backoff remaining (i + 1) with
      | RetryOutcome.success s a ds =>
        RetryOutcome.success s a (backoff * (i + 1) :: ds)
      | RetryOutcome.exhausted a ds =>
        RetryOutcome.exhausted a (backoff * (i + 1) :: ds)

/-- `requestWithRetryOn429(reqFn, retries, backoff)` over the status
sequence of `reqFn`'s responses. -/
def requestWithRetryOn429 (responses : Nat → Nat)
    (retries backoff : Nat) : RetryOutcome :=
  retryLoop responses backoff retries 0

/-- The delays awaited before reaching attempt index `k` (plus, on the
429 path, after attempt `k` itself): `backoff*1, backoff*2, …`. -/
def linearDelays (backoff k : Nat) : List Nat :=
  (List.range k).map (fun j => backoff * (j + 1))

/-! ## Single-shot waiter (`createWebhookServer` in `webhook-server.ts`) -/

/-- State of a `createWebhookServer` instance: the `receivedEvents`
array, whether `resolveNext` is non-null, and the settlement of the
promise returned by the current `waitForWebhook` call (`none` while
pending; a promise settles at most once). -/
structure SrvState where
  receivedEvents : List Body
  resolveNextArmed : Bool
  settled : Option (Except String Body)
  deriving Repr

/-- The error message of `waitForWebhook`'s timeout rejection. -/
def waitTimeoutMessage : String := "Timed out waiting for webhook event"

/-- The default `timeoutMs` of `waitForWebhook`. -/
def waitDefaultTimeoutMs : Nat := 10000

/-- The `POST /webhook` handler of `createWebhookServer`: pushes the
body, then, if `resolveNext` is set, calls it (which clears the timer
and resolves — a no-op if the promise already settled) and nulls it. -/
def handlePost (st : SrvState) (b : Body) : SrvState :=
  let st := { st with receivedEvents := st.receivedEvents ++ [b] }
  if st.resolveNextArmed then
    { st with
      resolveNextArmed := false
      settled := st.settled.orElse (fun _ => some (Except.ok b)) }
  else st

/-- The `setTimeout` callback of `waitForWebhook` firing: rejects the
promise with the timeout error — a no-op if it already settled. -/
def handleTimerFire (st : SrvState) : SrvState :=
  { st with
    settled := st.settled.orElse
      (fun _ => some (Except.error waitTimeoutMessage)) }

/-- A call to `waitForWebhook`: creates a fresh pending promise, starts
the timer and sets `resolveNext`. -/
def callWait (st : SrvState) : SrvState :=
  { st with resolveNextArmed := true, settled := none }

/-- Events the instance can observe after a `waitForWebhook` call: an
inbound `POST /webhook`, or the wait's timer firing (`timeoutMs`
milliseconds after the call). -/
inductive Ev where
  | post (b : Body)
  | timerFire
  deriving DecidableEq, Repr

/-- Process one event. -/
def stepEv (st : SrvState) : Ev → SrvState
  | Ev.post b => handlePost st b
  | Ev.timerFire => handleTimerFire st

/-- Process a chronological event list. -/
def runEvents (st : SrvState) (evs : List Ev) : SrvState :=
  evs.foldl stepEv st

/-- The fresh state of a `createWebhookServer` instance. -/
def initSrv : SrvState :=
  { receivedEvents := [], resolveNextArmed := false, settled := none }

/-- A full scenario around one `waitForWebhook` call: the bodies posted
before the call (handled with no waiter armed), then the call, then the
events after the call in chronological order.  Returns the final state;
its `settled` field is the settlement of the wait's promise. -/
def waitScenario (prePosts : List Body) (evs : List Ev) : SrvState :=
  runEvents (callWait (prePosts.foldl handlePost initSrv)) evs

/-! ## Theorems -/

/-- Length of a fresh token: draw `g` yields a string of length `g + 1`. -/
lemma uuidv4_length (g : Nat) : (uuidv4 g).1.length = g + 1 := by
  simp [uuidv4, String.length]

/-- C6: every top-level field supplied in the overrides object appears in
the built payload exactly as given — supplied nested objects
(`deliveryAddress`, `clientInfo`) replace the default wholesale, with no
deep merge — and every top-level field not supplied equals the fixed
default; in particular the status is the supplied one when present and
`"delivering"` otherwise, and the default order id is the fresh token of
this call. -/
theorem buildDeliveryWebhook_merge (g : Nat) (o : DeliveryWebhookOverrides) :
    (∀ v, o.orderId = some v → (buildDeliveryWebhook g o).1.orderId = v) ∧
    (∀ v, o.status = some v → (buildDeliveryWebhook g o).1.status = v) ∧
    (∀ v, o.paid = some v → (buildDeliveryWebhook g o).1.paid = v) ∧
    (∀ v, o.leaveAtTheDoor = some v →
      (buildDeliveryWebhook g o).1.leaveAtTheDoor = v) ∧
    (∀ v, o.deliveryAddress = some v →
      (buildDeliveryWebhook g o).1.deliveryAddress = v) ∧
    (∀ v, o.clientInfo = some v → (buildDeliveryWebhook g o).1.clientInfo = v) ∧
    (o.orderId = none → (buildDeliveryWebhook g o).1.orderId = (uuidv4 g).1) ∧
    (o.status = none → (buildDeliveryWebhook g o).1.status = "delivering") ∧
    (o.paid = none → (buildDeliveryWebhook g o).1.paid = true) ∧
    (o.leaveAtTheDoor = none → (buildDeliveryWebhook g o).1.leaveAtTheDoor = true) ∧
    (o.deliveryAddress = none →
      (buildDeliveryWebhook g o).1.deliveryAddress = defaultDeliveryAddress) ∧
    (o.clientInfo = none →
      (buildDeliveryWebhook g o).1.clientInfo = defaultClientInfo) := by
  refine ⟨fun v h => ?_, fun v h => ?_, fun v h => ?_, fun v h => ?_,
    fun v h => ?_, fun v h => ?_, fun h => ?_, fun h => ?_, fun h => ?_,
    fun h => ?_, fun h => ?_, fun h => ?_⟩ <;>
    simp [buildDeliveryWebhook, h]

/-- C6 witness: a concrete overrides object supplying `status` and a
whole `clientInfo` yields exactly those values, while `paid` keeps its
default. -/
theorem buildDeliveryWebhook_merge_witness :
    (buildDeliveryWebhook 0
        { status := some "delivered",
          clientInfo := some { name := "Alice", phone := "+1" } }).1.status
      = "delivered" ∧
    (buildDeliveryWebhook 0
        { status := some "delivered",
          clientInfo := some { name := "Alice", phone := "+1" } }).1.clientInfo
      = { name := "Alice", phone := "+1" } ∧
    (buildDeliveryWebhook 0
        { status := some "delivered",
          clientInfo := some { name := "Alice", phone := "+1" } }).1.paid
      = true := by
  obtain ⟨h1, h2, h3, h4, h5, h6, h7, h8, h9, h10, h11, h12⟩ :=
    buildDeliveryWebhook_merge 0
      { status := some "delivered",
        clientInfo := some { name := "Alice", phone := "+1" } }
  exact ⟨h2 _ rfl, h6 _ rfl, h9 rfl⟩

/-- C7: two successive builder calls (the second threaded on the first
call's advanced generator state) with no `orderId` override yield
different order identifiers. -/
theorem buildDeliveryWebhook_fresh_orderId (g : Nat)
    (o1 o2 : DeliveryWebhookOverrides)
    (h1 : o1.orderId = none) (h2 : o2.orderId = none) :
    (buildDeliveryWebhook g o1).1.orderId ≠
      (buildDeliveryWebhook (buildDeliveryWebhook g o1).2 o2).1.orderId := by
  intro heq
  have hlen := congrArg String.length heq
  simp [buildDeliveryWebhook, h1, h2, uuidv4_length, uuidv4] at hlen

/-- C7 witness: two successive calls with empty overrides from generator
state 0 yield different order identifiers. -/
theorem buildDeliveryWebhook_fresh_orderId_witness :
    (buildDeliveryWebhook 0 {}).1.orderId ≠
      (buildDeliveryWebhook (buildDeliveryWebhook 0 {}).2 {}).1.orderId :=
  buildDeliveryWebhook_fresh_orderId 0 {} {} rfl rfl

/-- Across a clear-free sequence of operations the log only grows at the
end: the old contents stay a prefix. -/
lemma runOps_prefix (log : List Body) (ops : List Op)
    (h : ∀ op ∈ ops, op ≠ Op.clear) : log <+: runOps log ops := by
  induction ops generalizing log with
  | nil => exact List.prefix_refl _
  | cons op rest ih =>
    cases op with
    | record b =>
      have hstep : log <+: log ++ [b] := List.prefix_append _ _
      exact hstep.trans
        (ih (log ++ [b]) (fun o ho => h o (List.mem_cons_of_mem _ ho)))
    | clear => exact absurd rfl (h Op.clear (List.mem_cons_self _ _))

/-- C4: the event log is only ever appended to or fully cleared — a
`record` yields exactly the old list with the body at the end (existing
entries neither reordered nor mutated), `clear` yields the empty list,
and across any clear-free operation sequence the old contents remain a
prefix and the length never decreases. -/
theorem eventLog_append_only :
    (∀ (log : List Body) (b : Body), applyOp log (Op.record b) = log ++ [b]) ∧
    (∀ log : List Body, applyOp log Op.clear = []) ∧
    (∀ (log : List Body) (ops : List Op), (∀ op ∈ ops, op ≠ Op.clear) →
      log <+: runOps log ops ∧ log.length ≤ (runOps log ops).length) := by
  refine ⟨fun log b => rfl, fun log => rfl, fun log ops h => ?_⟩
  have hp := runOps_prefix log ops h
  exact ⟨hp, hp.length_le⟩

/-- C4 witness: recording two bodies after an existing entry keeps the
entry as a prefix and does not shrink the log. -/
theorem eventLog_append_only_witness :
    [({ status := some "created" } : Body)] <+:
      runOps [{ status := some "created" }]
        [Op.record { status := some "cooking" },
         Op.record { status := some "delivered" }] ∧
    ([({ status := some "created" } : Body)]).length ≤
      (runOps [{ status := some "created" }]
        [Op.record { status := some "cooking" },
         Op.record { status := some "delivered" }]).length :=
  eventLog_append_only.2.2 _ _ (by decide)

/-- C9 counterexample: when `ngrok.disconnect()` rejects, `stopServer`
propagates the rejection and `ngrok.kill()` is never attempted, so a
failure of the second step does prevent the third step. -/
theorem stopServer_disconnect_failure_skips_kill :
    (stopServer (Except.ok ()) (Except.error "boom") (Except.ok ())).1
      = ["close", "disconnect"] ∧
    "kill" ∉ (stopServer (Except.ok ()) (Except.error "boom")
      (Except.ok ())).1 ∧
    (stopServer (Except.ok ()) (Except.error "boom") (Except.ok ())).2
      = Except.error "boom" := by
  refine ⟨rfl, ?_, rfl⟩
  simp [stopServer]

/-- C9 (amended): `stopServer` attempts its steps in the order close,
disconnect, kill; the close step's failure never prevents the remaining
steps (its result is never inspected, so the attempted steps and the
settlement do not depend on it) — but a `disconnect` rejection
propagates out of the `async` function immediately, so `kill` is then
never attempted; when `disconnect` succeeds all three steps are
attempted and the function settles as `kill` does. -/
theorem stopServer_teardown_order (closeRes disconnectRes killRes :
    Except String Unit) :
    ["close", "disconnect"] <+:
      (stopServer closeRes disconnectRes killRes).1 ∧
    (stopServer closeRes disconnectRes killRes).1 <+:
      ["close", "disconnect", "kill"] ∧
    (∀ e, disconnectRes = Except.error e →
      (stopServer closeRes disconnectRes killRes).1
        = ["close", "disconnect"] ∧
      (stopServer closeRes disconnectRes killRes).2 = Except.error e) ∧
    (disconnectRes = Except.ok () →
      (stopServer closeRes disconnectRes killRes).1
        = ["close", "disconnect", "kill"] ∧
      (stopServer closeRes disconnectRes killRes).2 = killRes) := by
  cases disconnectRes with
  | error e =>
    refine ⟨?_, ?_, ?_, ?_⟩
    · simp [stopServer]
    · cases killRes <;> simp [stopServer]
    · intro e2 he
      cases he
      exact ⟨rfl, rfl⟩
    · intro he
      cases he
  | ok u =>
    cases u
    refine ⟨?_, ?_, ?_, ?_⟩
    · cases killRes <;> simp [stopServer]
    · cases killRes <;> simp [stopServer]
    · intro e2 he
      cases he
    · intro _
      cases killRes with
      | error e => exact ⟨rfl, rfl⟩
      | ok u2 => cases u2; exact ⟨rfl, rfl⟩

/-- C9 witness for the amended claim: concrete step results — with a
failing close and a succeeding disconnect all three steps are attempted;
with a failing disconnect the attempted list stops after disconnect and
the error propagates; with a failing kill all three steps are attempted
and the kill error is the function's settlement. -/
theorem stopServer_teardown_order_witness :
    (stopServer (Except.error "close fail") (Except.ok ())
      (Except.ok ())).1 = ["close", "disconnect", "kill"] ∧
    (stopServer (Except.ok ()) (Except.error "tunnel gone")
      (Except.ok ())).1 = ["close", "disconnect"] ∧
    (stopServer (Except.ok ()) (Except.error "tunnel gone")
      (Except.ok ())).2 = Except.error "tunnel gone" ∧
    (stopServer (Except.ok ()) (Except.ok ())
      (Except.error "kill fail")).1 = ["close", "disconnect", "kill"] ∧
    (stopServer (Except.ok ()) (Except.ok ())
      (Except.error "kill fail")).2 = Except.error "kill fail" :=
  ⟨((stopServer_teardown_order (Except.error "close fail") (Except.ok ())
      (Except.ok ())).2.2.2 rfl).1,
   ((stopServer_teardown_order (Except.ok ())
      (Except.error "tunnel gone") (Except.ok ())).2.2.1
     "tunnel gone" rfl).1,
   ((stopServer_teardown_order (Except.ok ())
      (Except.error "tunnel gone") (Except.ok ())).2.2.1
     "tunnel gone" rfl).2,
   ((stopServer_teardown_order (Except.ok ()) (Except.ok ())
      (Except.error "kill fail")).2.2.2 rfl).1,
   ((stopServer_teardown_order (Except.ok ()) (Except.ok ())
      (Except.error "kill fail")).2.2.2 rfl).2⟩

/-- Reading a freshly appended cell yields its contents. -/
lemma list_getD_append_length {α : Type} (l : List α) (v d : α) :
    (l ++ [v]).getD l.length d = v := by
  induction l with
  | nil => rfl
  | cons a t ih => simp only [List.cons_append, List.length_cons,
      List.getD_cons_succ]; exact ih

/-- Appending cells does not change reads below the old length. -/
lemma list_getD_append_lt {α : Type} (l l2 : List α) (r : Nat) (d : α)
    (h : r < l.length) : (l ++ l2).getD r d = l.getD r d := by
  induction l generalizing r with
  | nil => exact absurd h (by simp)
  | cons a t ih =>
    cases r with
    | zero => rfl
    | succ r => simpa using ih r (by simpa using h)

/-- Writing one cell does not change reads of another. -/
lemma list_getD_set_ne {α : Type} (l : List α) (i j : Nat) (v d : α)
    (h : i ≠ j) : (l.set i v).getD j d = l.getD j d := by
  induction l generalizing i j with
  | nil => simp
  | cons a t ih =>
    cases i with
    | zero =>
      cases j with
      | zero => exact absurd rfl h
      | succ j => simp
    | succ i =>
      cases j with
      | zero => simp
      | succ j => simpa using ih i j (fun hij => h (by omega))

/-- Writing a cell in range then reading it yields the written value. -/
lemma list_getD_set_self {α : Type} (l : List α) (i : Nat) (v d : α)
    (h : i < l.length) : (l.set i v).getD i d = v := by
  induction l generalizing i with
  | nil => exact absurd h (by simp)
  | cons a t ih =>
    cases i with
    | zero => rfl
    | succ i => simpa using ih i (by simpa using h)

/-- C5 counterexample: `getAllEvents` returns the address of the live
internal array (`logRef` itself), so a record performed after the call
is visible through the value it returned — at call time the returned
reference reads `[]`, after one more record it reads the new body. -/
theorem getAllEvents_aliases_log :
    (getAllEvents ⟨[[]]⟩).2 = logRef ∧
    Store.read (getAllEvents ⟨[[]]⟩).1 (getAllEvents ⟨[[]]⟩).2 = [] ∧
    Store.read (recordRef (getAllEvents ⟨[[]]⟩).1 { status := some "a" })
        (getAllEvents ⟨[[]]⟩).2
      = [{ status := some "a" }] ∧
    ([({ status := some "a" } : Body)] : List Body) ≠ [] := by
  refine ⟨rfl, rfl, rfl, by simp⟩

/-- C5 (amended): `getWebhooks` returns a freshly allocated copy — its
address differs from the log's, it reads the snapshot taken at call
time, a later record changes neither the copy nor is a write through the
copy visible in the log — whereas `getAllEvents` returns the internal
array itself (the pair of the unchanged store and `logRef`), so later
records are visible through its return value. -/
theorem getWebhooks_returns_copy (st : Store) (b : Body) (v : List Body)
    (h : 1 ≤ st.cells.length) :
    (getWebhooks st).2 ≠ logRef ∧
    Store.read (getWebhooks st).1 (getWebhooks st).2 = st.read logRef ∧
    Store.read (recordRef (getWebhooks st).1 b) (getWebhooks st).2
      = st.read logRef ∧
    Store.read (recordRef (getWebhooks st).1 b) logRef
      = st.read logRef ++ [b] ∧
    Store.read (Store.write (getWebhooks st).1 (getWebhooks st).2 v) logRef
      = st.read logRef ∧
    getAllEvents st = (st, logRef) := by
  have hlen : st.cells.length ≠ 0 := by omega
  have hread : Store.read (getWebhooks st).1 logRef = st.read logRef := by
    simp only [getWebhooks, Store.alloc, Store.read, logRef]
    exact list_getD_append_lt _ _ 0 [] (by omega)
  refine ⟨?_, ?_, ?_, ?_, ?_, rfl⟩
  · simpa [getWebhooks, Store.alloc, logRef] using hlen
  · simp only [getWebhooks, Store.alloc, Store.read, logRef]
    exact list_getD_append_length st.cells (st.cells.getD 0 []) []
  · simp only [recordRef, Store.write, getWebhooks, Store.alloc,
      Store.read, logRef] at hread ⊢
    rw [list_getD_set_ne _ 0 st.cells.length _ _ (by omega)]
    exact list_getD_append_length st.cells (st.cells.getD 0 []) []
  · have hlt : 0 < (getWebhooks st).1.cells.length := by
      simp [getWebhooks, Store.alloc]
    simp only [recordRef, Store.write, Store.read, logRef] at hread ⊢
    rw [list_getD_set_self _ 0 _ _ hlt, hread]
  · simp only [Store.write, Store.read, getWebhooks, Store.alloc, logRef]
    rw [list_getD_set_ne _ st.cells.length 0 _ _ (by omega)]
    exact list_getD_append_lt _ _ 0 [] (by omega)

/-- C5 witness for the amended claim: a concrete store holding one
recorded body. -/
theorem getWebhooks_returns_copy_witness :
    (getWebhooks ⟨[[{ status := some "created" }]]⟩).2 ≠ logRef ∧
    Store.read (getWebhooks ⟨[[{ status := some "created" }]]⟩).1
        (getWebhooks ⟨[[{ status := some "created" }]]⟩).2
      = Store.read ⟨[[{ status := some "created" }]]⟩ logRef ∧
    Store.read
        (recordRef (getWebhooks ⟨[[{ status := some "created" }]]⟩).1
          { status := some "cooking" })
        (getWebhooks ⟨[[{ status := some "created" }]]⟩).2
      = Store.read ⟨[[{ status := some "created" }]]⟩ logRef := by
  obtain ⟨h1, h2, h3, h4, h5, h6⟩ :=
    getWebhooks_returns_copy ⟨[[{ status := some "created" }]]⟩
      { status := some "cooking" } [] (by simp)
  exact ⟨h1, h2, h3⟩

/-- Unfolding of the linear-delay list at a successor count. -/
lemma linearDelays_shift (backoff k i : Nat) :
    backoff * (i + 1) ::
        (List.range k).map (fun j => backoff * (i + 1 + j + 1))
      = (List.range (k + 1)).map (fun j => backoff * (i + j + 1)) := by
  rw [List.range_succ_eq_map, List.map_cons, List.map_map]
  refine congrArg₂ _ (by ring_nf) ?_
  refine List.map_congr_left (fun j _ => ?_)
  simp only [Function.comp_apply, Nat.succ_eq_add_one]
  have h : i + 1 + j + 1 = i + (j + 1) + 1 := by omega
  rw [h]

/-- If the first `k` attempts starting at index `i` are rate-limited and
attempt `i + k` is not, the loop returns that response after `k`
linearly growing delays. -/
lemma retryLoop_success (responses : Nat → Nat) (backoff : Nat) :
    ∀ r i k, k < r → (∀ j, j < k → responses (i + j) = 429) →
      responses (i + k) ≠ 429 →
      retryLoop responses backoff r i =
        RetryOutcome.success (responses (i + k)) (i + k + 1)
          ((List.range k).map (fun j => backoff * (i + j + 1))) := by
  intro r
  induction r with
  | zero => intro i k hk; omega
  | succ r ih =>
    intro i k hk hall hlast
    cases k with
    | zero =>
      have h0 : responses i ≠ 429 := by simpa using hlast
      simp [retryLoop, h0]
    | succ k =>
      have h429 : responses i = 429 := by simpa using hall 0 (Nat.succ_pos k)
      have hrec := ih (i + 1) k (by omega)
        (fun j hj => by
          have := hall (j + 1) (by omega)
          simpa [Nat.add_assoc, Nat.add_comm 1 j] using this)
        (by
          have : i + 1 + k = i + (k + 1) := by omega
          rw [this]; exact hlast)
      simp only [retryLoop, h429, ne_eq, not_true_eq_false, if_false,
        ite_false, hrec]
      have harg : i + 1 + k = i + (k + 1) := by omega
      rw [harg, linearDelays_shift]

/-- If every attempt from index `i` on (for `r` rounds) is rate-limited,
the loop exhausts with `i + r` total attempts and `r` delays. -/
lemma retryLoop_exhausted (responses : Nat → Nat) (backoff : Nat) :
    ∀ r i, (∀ j, j < r → responses (i + j) = 429) →
      retryLoop responses backoff r i =
        RetryOutcome.exhausted (i + r)
          ((List.range r).map (fun j => backoff * (i + j + 1))) := by
  intro r
  induction r with
  | zero => intro i _; simp [retryLoop]
  | succ r ih =>
    intro i hall
    have h429 : responses i = 429 := by simpa using hall 0 (Nat.succ_pos r)
    have hrec := ih (i + 1)
      (fun j hj => by
        have := hall (j + 1) (by omega)
        simpa [Nat.add_assoc, Nat.add_comm 1 j] using this)
    simp only [retryLoop, h429, ne_eq, not_true_eq_false, if_false,
      ite_false, hrec]
    have harg : i + 1 + r = i + (r + 1) := by omega
    rw [harg, linearDelays_shift]

/-- C8: `requestWithRetryOn429` returns the first non-429 response
immediately — if the first `k < retries` responses are 429 and response
`k` is not, it succeeds with that response after `k + 1 ≤ retries`
attempts, having awaited the linearly increasing delays
`backoff*1, …, backoff*k` between attempts — and it raises the
retries-exhausted error exactly when all `retries` attempts return 429,
never invoking the operation more than `retries` times. -/
theorem requestWithRetryOn429_contract (responses : Nat → Nat)
    (retries backoff : Nat) :
    (∀ k, k < retries → (∀ j, j < k → responses j = 429) →
      responses k ≠ 429 →
      requestWithRetryOn429 responses retries backoff =
        RetryOutcome.success (responses k) (k + 1)
          (linearDelays backoff k)) ∧
    ((∀ j, j < retries → responses j = 429) →
      requestWithRetryOn429 responses retries backoff =
        RetryOutcome.exhausted retries (linearDelays backoff retries)) := by
  constructor
  · intro k hk hall hlast
    have := retryLoop_success responses backoff retries 0 k hk
      (fun j hj => by simpa using hall j hj) (by simpa using hlast)
    simpa [requestWithRetryOn429, linearDelays] using this
  · intro hall
    have := retryLoop_exhausted responses backoff retries 0
      (fun j hj => by simpa using hall j hj)
    simpa [requestWithRetryOn429, linearDelays] using this

/-- C8 witness: an operation answering 429 twice then 200, with
`retries = 3`, returns the 200 after delays `backoff*1, backoff*2`; an
operation always answering 429, with `retries = 2`, exhausts after
exactly 2 attempts. -/
theorem requestWithRetryOn429_contract_witness :
    requestWithRetryOn429 (fun i => if i < 2 then 429 else 200) 3 500
      = RetryOutcome.success 200 3 [500 * 1, 500 * 2] ∧
    requestWithRetryOn429 (fun _ => 429) 2 500
      = RetryOutcome.exhausted 2 [500 * 1, 500 * 2] := by
  constructor
  · have := (requestWithRetryOn429_contract
      (fun i => if i < 2 then 429 else 200) 3 500).1 2 (by omega)
      (by decide) (by decide)
    simpa [linearDelays] using this
  · have := (requestWithRetryOn429_contract (fun _ => 429) 2 500).2
      (fun j _ => rfl)
    simpa [linearDelays] using this

/-- A string is among the observed statuses exactly when it is non-empty
(the JavaScript `Boolean` filter) and is the `status` of some body in
the log. -/
lemma mem_observedStatuses {log : List Body} {s : String} :
    s ∈ observedStatuses log ↔
      s ≠ "" ∧ ∃ b ∈ log, b.status = some s := by
  simp only [observedStatuses, List.mem_filter, List.mem_filterMap,
    decide_eq_true_eq]
  tauto

/-- The coverage check succeeds exactly when every expected status is
among the observed statuses. -/
lemma allReceived_true_iff {expected : List String} {log : List Body} :
    allReceived expected log = true ↔
      ∀ s ∈ expected, s ∈ observedStatuses log := by
  simp [allReceived, List.all_eq_true, List.elem_eq_mem]

/-- The deadline check of tick `n` holds exactly from the deadline tick
on. -/
lemma deadlineElapsed_iff {t n : Nat} :
    deadlineElapsed t n = true ↔ deadlineTick t ≤ n := by
  simp only [deadlineElapsed, deadlineTick, gt_iff_lt, decide_eq_true_eq]
  omega

/-- A covering tick resolves no matter what the deadline says. -/
lemma tickOutcome_resolve {expected : List String} {log : List Body}
    (h : allReceived expected log = true) (t n : Nat) :
    tickOutcome expected t n log = some (Settle.resolve log) := by
  cases hdl : deadlineElapsed t n <;>
    simp [tickOutcome, tickSettles, h, hdl]

/-- A non-covering tick before the deadline keeps polling. -/
lemma tickOutcome_continue {expected : List String} {log : List Body}
    {t n : Nat} (hcov : allReceived expected log = false)
    (hdl : deadlineElapsed t n = false) :
    tickOutcome expected t n log = none := by
  simp [tickOutcome, tickSettles, hcov, hdl]

/-- A non-covering tick past the deadline rejects with the observed
statuses. -/
lemma tickOutcome_reject {expected : List String} {log : List Body}
    {t n : Nat} (hcov : allReceived expected log = false)
    (hdl : deadlineElapsed t n = true) :
    tickOutcome expected t n log
      = some (Settle.reject (observedStatuses log)) := by
  simp [tickOutcome, tickSettles, hcov, hdl]

/-- If coverage holds at some tick `k` within the deadline, the polling
loop started at tick `n ≤ k` resolves with the log snapshot of some
covering tick `m` between `n` and `k`. -/
lemma runFrom_resolve (expected : List String) (t : Nat)
    (trace : Nat → List Body) :
    ∀ fuel n k, n ≤ k → k ≤ deadlineTick t →
      deadlineTick t + 1 ≤ n + fuel →
      allReceived expected (trace k) = true →
      ∃ m, n ≤ m ∧ m ≤ k ∧ allReceived expected (trace m) = true ∧
        runFrom expected t trace fuel n = Settle.resolve (trace m) := by
  intro fuel
  induction fuel with
  | zero => intro n k hnk hk hfuel _; omega
  | succ f ih =>
    intro n k hnk hk hfuel hcov
    cases hc : allReceived expected (trace n) with
    | true =>
      refine ⟨n, Nat.le_refl n, hnk, hc, ?_⟩
      simp [runFrom, tickOutcome_resolve hc]
    | false =>
      have hne : n ≠ k := fun he => by rw [he, hcov] at hc; cases hc
      have hlt : n < deadlineTick t := by omega
      have hdl : deadlineElapsed t n = false := by
        cases hde : deadlineElapsed t n with
        | false => rfl
        | true => exact absurd (deadlineElapsed_iff.mp hde) (by omega)
      obtain ⟨m, hm1, hm2, hm3, hm4⟩ :=
        ih (n + 1) k (by omega) hk (by omega) hcov
      refine ⟨m, by omega, hm2, hm3, ?_⟩
      rw [show runFrom expected t trace (f + 1) n
          = runFrom expected t trace f (n + 1) from by
        simp [runFrom, tickOutcome_continue hc hdl]]
      exact hm4

/-- If no tick up to the deadline tick is covering, the polling loop
rejects at the deadline tick with the statuses observed there. -/
lemma runFrom_reject (expected : List String) (t : Nat)
    (trace : Nat → List Body) :
    ∀ fuel n, n ≤ deadlineTick t → deadlineTick t + 1 ≤ n + fuel →
      (∀ m, n ≤ m → m ≤ deadlineTick t →
        allReceived expected (trace m) = false) →
      runFrom expected t trace fuel n
        = Settle.reject (observedStatuses (trace (deadlineTick t))) := by
  intro fuel
  induction fuel with
  | zero => intro n hn hfuel _; omega
  | succ f ih =>
    intro n hn hfuel hall
    have hcov : allReceived expected (trace n) = false :=
      hall n (Nat.le_refl n) hn
    rcases Nat.eq_or_lt_of_le hn with heq | hlt
    · have hdl : deadlineElapsed t n = true :=
        deadlineElapsed_iff.mpr (by omega)
      rw [heq]
      simp [runFrom, tickOutcome_reject (heq ▸ hcov) (heq ▸ hdl)]
    · have hdl : deadlineElapsed t n = false := by
        cases hde : deadlineElapsed t n with
        | false => rfl
        | true => exact absurd (deadlineElapsed_iff.mp hde) (by omega)
      rw [show runFrom expected t trace (f + 1) n
          = runFrom expected t trace f (n + 1) from by
        simp [runFrom, tickOutcome_continue hcov hdl]]
      exact ih (n + 1) (by omega) (by omega)
        (fun m hm1 hm2 => hall m (by omega) hm2)

/-- C1 counterexample to the claim as stated: the empty string `""` is
an expected status, and a body whose `status` field is `""` is recorded
from the very first tick, yet `waitForWebhookStatuses` never resolves —
it times out and rejects (with an empty observed list), because the
`Boolean(s)` filter drops falsy statuses and `""` is falsy in
JavaScript. -/
theorem waitForWebhookStatuses_empty_status_counterexample :
    ({ status := some "" } : Body) ∈
        (fun _ : Nat => [({ status := some "" } : Body)]) 0 ∧
    ({ status := some "" } : Body).status = some "" ∧
    runWait [""] 1 (fun _ => [{ status := some "" }])
      = Settle.reject [] := by
  refine ⟨by simp, rfl, ?_⟩
  rfl

/-- C1 (amended): for expected statuses that are all non-empty strings,
once every one of them has appeared as the `status` field of at least
one recorded body at a poll tick within the deadline — in any arrival
order, duplicates included — `waitForWebhookStatuses` resolves with the
full snapshot of all bodies received at some covering tick no later
than that one. -/
theorem waitForWebhookStatuses_resolves_on_coverage
    (expected : List String) (t : Nat) (trace : Nat → List Body) (n : Nat)
    (hne : ∀ s ∈ expected, s ≠ "")
    (hcov : ∀ s ∈ expected, ∃ b ∈ trace n, b.status = some s)
    (hdl : n ≤ deadlineTick t) :
    ∃ m ≤ n, runWait expected t trace = Settle.resolve (trace m) ∧
      ∀ s ∈ expected, ∃ b ∈ trace m, b.status = some s := by
  have hcov' : allReceived expected (trace n) = true := by
    rw [allReceived_true_iff]
    intro s hs
    exact mem_observedStatuses.mpr ⟨hne s hs, hcov s hs⟩
  obtain ⟨m, _, hm2, hm3, hm4⟩ :=
    runFrom_resolve expected t trace (deadlineTick t + 1) 0 n
      (Nat.zero_le n) hdl (by omega) hcov'
  exact ⟨m, hm2, hm4,
    fun s hs => (mem_observedStatuses.mp
      (allReceived_true_iff.mp hm3 s hs)).2⟩

/-- C1 witness for the amended claim: expecting `"a"` and `"b"`, with
bodies arriving in the order `"b"`, then a duplicate `"b"`, then `"a"`,
the wait resolves with a snapshot covering both. -/
theorem waitForWebhookStatuses_resolves_on_coverage_witness :
    ∃ m ≤ 2, runWait ["a", "b"] 1
        (fun k =>
          if k = 0 then [{ status := some "b" }]
          else if k = 1 then
            [{ status := some "b" }, { status := some "b" }]
          else
            [{ status := some "b" }, { status := some "b" },
             { status := some "a" }])
      = Settle.resolve
        ((fun k =>
          if k = 0 then [{ status := some "b" }]
          else if k = 1 then
            [{ status := some "b" }, { status := some "b" }]
          else
            [{ status := some "b" }, { status := some "b" },
             { status := some "a" }]) m) ∧
      ∀ s ∈ ["a", "b"],
        ∃ b ∈ (fun k : Nat =>
          if k = 0 then [({ status := some "b" } : Body)]
          else if k = 1 then
            [{ status := some "b" }, { status := some "b" }]
          else
            [{ status := some "b" }, { status := some "b" },
             { status := some "a" }]) m, b.status = some s :=
  waitForWebhookStatuses_resolves_on_coverage ["a", "b"] 1 _ 2
    (by decide) (by decide) (by decide)

/-- C2: when no poll tick up to the deadline achieves full coverage —
for each such tick some expected status has not appeared as any body's
`status` — `waitForWebhookStatuses` rejects at the deadline with the
Timeout error whose message carries exactly the list of status values
observed in the log at that point (possibly none). -/
theorem waitForWebhookStatuses_timeout
    (expected : List String) (t : Nat) (trace : Nat → List Body)
    (hnc : ∀ m, m ≤ deadlineTick t →
      ∃ s ∈ expected, ∀ b ∈ trace m, b.status ≠ some s) :
    runWait expected t trace
      = Settle.reject (observedStatuses (trace (deadlineTick t))) := by
  apply runFrom_reject expected t trace (deadlineTick t + 1) 0
    (Nat.zero_le _) (by omega)
  intro m _ hm
  obtain ⟨s, hs, hb⟩ := hnc m hm
  cases hcov : allReceived expected (trace m) with
  | false => rfl
  | true =>
    obtain ⟨-, b, hbm, hbs⟩ :=
      mem_observedStatuses.mp (allReceived_true_iff.mp hcov s hs)
    exact absurd hbs (hb b hbm)

/-- C2 witness: expecting `"x"` while only a `"created"` body ever
arrives, the wait times out and the rejection carries the observed
status list `["created"]`. -/
theorem waitForWebhookStatuses_timeout_witness :
    runWait ["x"] 0 (fun _ => [{ status := some "created" }])
      = Settle.reject ["created"] :=
  waitForWebhookStatuses_timeout ["x"] 0
    (fun _ => [{ status := some "created" }]) (by decide)

/-- C3: in a poll tick where the full-coverage condition and the
deadline-elapsed condition hold simultaneously, the tick attempts
`resolve` first and `reject` second, and the promise — settling at most
once — completes successfully with the snapshot; a tick where coverage
holds never rejects. -/
theorem tick_success_beats_timeout (expected : List String) (t n : Nat)
    (log : List Body) (hcov : allReceived expected log = true)
    (hdl : deadlineElapsed t n = true) :
    tickSettles expected t n log
      = [Settle.resolve log, Settle.reject (observedStatuses log)] ∧
    tickOutcome expected t n log = some (Settle.resolve log) := by
  constructor
  · simp [tickSettles, hcov, hdl]
  · exact tickOutcome_resolve hcov t n

/-- C3 witness: with expected status `"a"` covered by the log and the
deadline of a zero-minute timeout long elapsed at tick 0, the tick still
resolves. -/
theorem tick_success_beats_timeout_witness :
    tickSettles ["a"] 0 0 [{ status := some "a" }]
      = [Settle.resolve [{ status := some "a" }],
         Settle.reject ["a"]] ∧
    tickOutcome ["a"] 0 0 [{ status := some "a" }]
      = some (Settle.resolve [{ status := some "a" }]) :=
  tick_success_beats_timeout ["a"] 0 0 [{ status := some "a" }]
    (by decide) (by decide)

/-- A promise settles at most once: once `settled` is set, no later
event changes it. -/
lemma runEvents_settled (evs : List Ev) (st : SrvState)
    (r : Except String Body) (h : st.settled = some r) :
    (runEvents st evs).settled = some r := by
  induction evs generalizing st with
  | nil => exact h
  | cons e rest ih =>
    refine ih (stepEv st e) ?_
    cases e with
    | post b =>
      simp only [stepEv, handlePost]
      split
      · simp [h]
      · simpa using h
    | timerFire => simp [stepEv, handleTimerFire, h]

/-- C10: around a single `waitForWebhook` call, the promise resolves
with exactly the body of the first `POST /webhook` received after the
call — whatever bodies were recorded before the call, and with no
status condition on the body — and it rejects with the
`"Timed out waiting for webhook event"` error when the timer
(`timeoutMs` milliseconds, default 10000) fires before any such post. -/
theorem waitForWebhook_next_post (prePosts : List Body) (evs : List Ev) :
    (∀ b rest, evs = Ev.post b :: rest →
      (waitScenario prePosts evs).settled = some (Except.ok b)) ∧
    (∀ rest, evs = Ev.timerFire :: rest →
      (waitScenario prePosts evs).settled
        = some (Except.error waitTimeoutMessage)) ∧
    waitDefaultTimeoutMs = 10000 := by
  have harmed : (callWait (prePosts.foldl handlePost initSrv)).settled
      = none := rfl
  have harmed2 : (callWait (prePosts.foldl handlePost initSrv)).resolveNextArmed
      = true := rfl
  refine ⟨fun b rest he => ?_, fun rest he => ?_, rfl⟩
  · subst he
    simp only [waitScenario, runEvents, List.foldl_cons]
    refine runEvents_settled rest _ _ ?_
    simp [stepEv, handlePost, harmed2, harmed]
  · subst he
    simp only [waitScenario, runEvents, List.foldl_cons]
    refine runEvents_settled rest _ _ ?_
    simp [stepEv, handleTimerFire, harmed]

/-- C10 witness: with a body recorded before the call, a wait followed
by two posts resolves with the first post's body; a wait whose timer
fires first rejects with the timeout error even though the log already
held a body. -/
theorem waitForWebhook_next_post_witness :
    (waitScenario [{ status := some "delivered" }]
        [Ev.post { status := some "created" },
         Ev.post { status := some "cooking" }]).settled
      = some (Except.ok { status := some "created" }) ∧
    (waitScenario [{ status := some "delivered" }]
        [Ev.timerFire]).settled
      = some (Except.error waitTimeoutMessage) :=
  ⟨(waitForWebhook_next_post [{ status := some "delivered" }]
      [Ev.post { status := some "created" },
       Ev.post { status := some "cooking" }]).1
      { status := some "created" } _ rfl,
   (waitForWebhook_next_post [{ status := some "delivered" }]
      [Ev.timerFire]).2.1 [] rfl⟩

end Webhook
